import Mathlib

/-!
Verification development for the artifact-assembly engine in
`src/module_writer.rs`: the archive writer backends (filesystem, zip wheel,
gzip tar source distribution), the content-addressed integrity ledger, the
path-exclusion filter, and the cffi declaration generation protocol.

Machine integers are modelled as `Nat` with explicit reduction modulo
2 ^ 32 or 2 ^ 64 where the source relies on fixed-width arithmetic; byte
buffers are `List Nat` with bytes reduced modulo 256. External collaborators
with documented behaviour (the sha2, base64, ignore and tar crates, the
python subprocess, the file system) are embedded per their documented
semantics where the source depends on them, and are otherwise parameters.
-/

/-- Reduction modulo 2 ^ 32, the word size of the SHA-256 compression
function used by the sha2 crate when hashing ledger entries. -/
def w32 (n : Nat) : Nat := n % 4294967296

/-- Right rotation of a 32-bit word by `n` bits. -/
def rotr32 (n x : Nat) : Nat := w32 ((x >>> n) ||| (x <<< (32 - n)))

/-- Upper-case sigma-0 function of the SHA-256 compression loop. -/
def bigSigma0 (x : Nat) : Nat := (rotr32 2 x) ^^^ (rotr32 13 x) ^^^ (rotr32 22 x)

/-- Upper-case sigma-1 function of the SHA-256 compression loop. -/
def bigSigma1 (x : Nat) : Nat := (rotr32 6 x) ^^^ (rotr32 11 x) ^^^ (rotr32 25 x)

/-- Lower-case sigma-0 function of the SHA-256 message schedule. -/
def smallSigma0 (x : Nat) : Nat := (rotr32 7 x) ^^^ (rotr32 18 x) ^^^ (x >>> 3)

/-- Lower-case sigma-1 function of the SHA-256 message schedule. -/
def smallSigma1 (x : Nat) : Nat := (rotr32 17 x) ^^^ (rotr32 19 x) ^^^ (x >>> 10)

/-- Choice function of the SHA-256 compression loop; the complement is
taken inside 32 bits. -/
def chF (e f g : Nat) : Nat := (e &&& f) ^^^ ((e ^^^ 4294967295) &&& g)

/-- Majority function of the SHA-256 compression loop. -/
def majF (a b c : Nat) : Nat := (a &&& b) ^^^ (a &&& c) ^^^ (b &&& c)

/-- Round constants of SHA-256. -/
def sha256K : List Nat :=
  [1116352408, 1899447441, 3049323471, 3921009573, 961987163,
   1508970993, 2453635748, 2870763221, 3624381080, 310598401,
   607225278, 1426881987, 1925078388, 2162078206, 2614888103,
   3248222580, 3835390401, 4022224774, 264347078, 604807628,
   770255983, 1249150122, 1555081692, 1996064986, 2554220882,
   2821834349, 2952996808, 3210313671, 3336571891, 3584528711,
   113926993, 338241895, 666307205, 773529912, 1294757372,
   1396182291, 1695183700, 1986661051, 2177026350, 2456956037,
   2730485921, 2820302411, 3259730800, 3345764771, 3516065817,
   3600352804, 4094571909, 275423344, 430227734, 506948616,
   659060556, 883997877, 958139571, 1322822218, 1537002063,
   1747873779, 1955562222, 2024104815, 2227730452, 2361852424,
   2428436474, 2756734187, 3204031479, 3329325298]

/-- Initial hash state of SHA-256. -/
def sha256H0 : List Nat :=
  [1779033703, 3144134277, 1013904242, 2773480762,
   1359893119, 2600822924, 528734635, 1541459225]

/-- Big-endian packing of bytes into 32-bit words. -/
def toWords : List Nat → List Nat
  | a :: b :: c :: d :: rest =>
      (a * 16777216 + b * 65536 + c * 256 + d) :: toWords rest
  | _ => []

/-- Big-endian bytes of a 32-bit word. -/
def u32be (w : Nat) : List Nat :=
  [w >>> 24 % 256, w >>> 16 % 256, w >>> 8 % 256, w % 256]

/-- Big-endian bytes of a 64-bit quantity, used for the length field of
SHA-256 padding. -/
def u64be (n : Nat) : List Nat :=
  [n >>> 56 % 256, n >>> 48 % 256, n >>> 40 % 256, n >>> 32 % 256,
   n >>> 24 % 256, n >>> 16 % 256, n >>> 8 % 256, n % 256]

/-- Extension of the 16-word message schedule by the given number of extra
words per the SHA-256 recurrence. -/
def extendW : List Nat → Nat → List Nat
  | ws, 0 => ws
  | ws, n + 1 =>
      let len := ws.length
      let w := w32 (smallSigma1 (ws.getD (len - 2) 0) + ws.getD (len - 7) 0 +
        smallSigma0 (ws.getD (len - 15) 0) + ws.getD (len - 16) 0)
      extendW (ws ++ [w]) n

/-- One round of the SHA-256 compression function on the 8-word working
state. -/
def compressStep (st : List Nat) (kw : Nat × Nat) : List Nat :=
  match st with
  | [a, b, c, d, e, f, g, h] =>
      let t1 := w32 (h + bigSigma1 e + chF e f g + kw.1 + kw.2)
      let t2 := w32 (bigSigma0 a + majF a b c)
      [w32 (t1 + t2), a, b, c, w32 (d + t1), e, f, g]
  | other => other

/-- Processing of one 64-byte block of the padded message. -/
def compressBlock (hs : List Nat) (block : List Nat) : List Nat :=
  let ws := extendW (toWords block) 48
  let st := ((sha256K.zip ws).foldl compressStep hs)
  (hs.zip st).map (fun p => w32 (p.1 + p.2))

/-- Splitting of a byte list into 64-byte chunks. -/
def chunks64 (l : List Nat) : List (List Nat) :=
  if h : l = [] then []
  else (l.take 64) :: chunks64 (l.drop 64)
termination_by l.length
decreasing_by
  simp only [List.length_drop]
  exact Nat.sub_lt (List.length_pos.mpr h) (by decide)

/-- SHA-256 padding: the byte 0x80, zero bytes to a block boundary minus
eight, then the bit length big-endian in 64 bits. -/
def shaPad (msg : List Nat) : List Nat :=
  let m := msg.map (· % 256)
  let L := m.length
  let k := (56 + 64 - ((L + 1) % 64)) % 64
  m ++ [128] ++ List.replicate k 0 ++ u64be ((8 * L) % 18446744073709551616)

/-- SHA-256 digest of a byte list, as 32 bytes; the model of the
`Sha256::digest` call from the sha2 crate used for every ledger record. -/
def sha256 (msg : List Nat) : List Nat :=
  let hs := (chunks64 (shaPad msg)).foldl compressBlock sha256H0
  (hs.map u32be).flatten

/-- Alphabet of the URL-safe base64 encoding used by the base64 crate
configuration `URL_SAFE_NO_PAD`. -/
def b64alphabet : String :=
  "ABCDEFGHIJKLMNOPQRSTUVWXYZabcdefghijklmnopqrstuvwxyz0123456789-_"

/-- Character of the URL-safe base64 alphabet at the given 6-bit index. -/
def b64char (n : Nat) : Char := b64alphabet.data.getD n 'A'

/-- Unpadded URL-safe base64 rendering of a byte list; the model of
`base64::encode_config(digest, base64::URL_SAFE_NO_PAD)`. -/
def base64urlNoPad : List Nat → String
  | [] => ""
  | [a] => String.mk [b64char (a >>> 2), b64char ((a &&& 3) <<< 4)]
  | [a, b] => String.mk [b64char (a >>> 2), b64char (((a &&& 3) <<< 4) ||| (b >>> 4)),
      b64char ((b &&& 15) <<< 2)]
  | a :: b :: c :: rest =>
      String.mk [b64char (a >>> 2), b64char (((a &&& 3) <<< 4) ||| (b >>> 4)),
        b64char (((b &&& 15) <<< 2) ||| (c >>> 6)), b64char (c &&& 63)] ++
      base64urlNoPad rest

/-- Newline character. -/
def nlChar : Char := Char.ofNat 10

/-- Carriage-return character. -/
def crChar : Char := Char.ofNat 13

/-- Backslash character. -/
def bsChar : Char := Char.ofNat 92

/-- Forward-slash character. -/
def fsChar : Char := Char.ofNat 47

/-- Splitting of a character list on a separator character, mirroring
`String.splitOn` with a one-character pattern. -/
def chSplit (sep : Char) : List Char → List (List Char)
  | [] => [[]]
  | c :: cs =>
      let r := chSplit sep cs
      if c == sep then [] :: r
      else
        match r with
        | [] => [[c]]
        | h :: t => (c :: h) :: t

/-- Removal of one trailing carriage return, as `str::lines` does. -/
def stripCR (l : List Char) : List Char :=
  match l.getLast? with
  | some c => if c == crChar then l.dropLast else l
  | none => l

/-- Splitting of a string into lines the way the Rust `str::lines` iterator
does: the newline is a terminator, and a trailing carriage return is
stripped from each line. -/
def rustLines (s : String) : List String :=
  match s.data with
  | [] => []
  | l =>
      let parts := chSplit nlChar l
      let parts := if (l.getLast?.getD ' ') == nlChar then parts.dropLast else parts
      parts.map (fun cs => String.mk (stripCR cs))

/-- Last line of a string, or the empty string; the model of
`str::lines().last().unwrap_or("")` in the cffi error classifier. -/
def lastLine (s : String) : String := (rustLines s).getLast?.getD ""

/-- Prefix test on character lists. -/
def isPrefixL : List Char → List Char → Bool
  | [], _ => true
  | _ :: _, [] => false
  | a :: as, b :: bs => (a == b) && isPrefixL as bs

/-- Infix search on character lists. -/
def infixOfL (pat s : List Char) : Bool :=
  match s with
  | [] => isPrefixL pat []
  | _ :: rest => isPrefixL pat s || infixOfL pat rest

/-- Substring containment test, used to state which error messages carry
the manual-installation instruction. -/
def strContains (s pat : String) : Bool := infixOfL pat.data s.data

/-- Whitespace test covering the characters `str::trim` removes in the
probe outputs of this development. -/
def isWS (c : Char) : Bool :=
  c == ' ' || c == nlChar || c == crChar || c == Char.ofNat 9

/-- Model of `str::trim`, removal of leading and trailing whitespace. -/
def rustTrim (s : String) : String :=
  String.mk (((s.data.dropWhile isWS).reverse.dropWhile isWS).reverse)

/-- Glob matching on character lists with explicit fuel, kept structural
so that concrete instances evaluate inside the kernel: a star matches any
sequence of characters, every other character matches itself.  This
embeds the glob semantics of the ignore crate patterns as far as the spec
and the unit test of the source exercise them. -/
def globMatchFuel : Nat → List Char → List Char → Bool
  | 0, _, _ => false
  | _ + 1, [], [] => true
  | _ + 1, [], _ :: _ => false
  | n + 1, '*' :: ps, [] => globMatchFuel n ps []
  | n + 1, '*' :: ps, c :: cs =>
      globMatchFuel n ps (c :: cs) || globMatchFuel n ('*' :: ps) cs
  | _ + 1, _ :: _, [] => false
  | n + 1, pc :: ps, c :: cs => (pc == c) && globMatchFuel n ps cs

/-- Glob matching on character lists; the fuel strictly exceeds the sum
of lengths, which strictly decreases at every recursive step, so the
fuel never runs out. -/
def globMatchL (p s : List Char) : Bool :=
  globMatchFuel (p.length + s.length + 1) p s

/-- Glob matching on strings. -/
def globMatch (pat s : String) : Bool := globMatchL pat.data s.data

/-- Exclusion rules as built by `ignore::overrides::OverrideBuilder`: each
pattern is a glob, and a leading exclamation mark marks the glob as
negated.  The boolean records negation. -/
def mkOverride (pats : List String) : List (String × Bool) :=
  pats.map (fun p =>
    match p.data with
    | c :: rest => if c == '!' then (String.mk rest, true) else (p, false)
    | [] => (p, false))

/-- Model of `Override::matched`: the last glob in the set that matches the
path decides, per the documented last-match-wins semantics of the ignore
crate. -/
def overrideMatched (rules : List (String × Bool)) (path : String) :
    Option (String × Bool) :=
  rules.reverse.find? (fun r => globMatch r.1 path)

/-- Model of `Match::is_whitelist` on the result of `Override::matched`:
true exactly when the deciding glob is not negated. -/
def isWhitelistLast (rules : List (String × Bool)) (path : String) : Bool :=
  match overrideMatched rules path with
  | some r => !r.2
  | none => false

/-- Shared body of `WheelWriter::exclude` and `SDistWriter::exclude`: with
a rule set present a path is excluded when `matched(..).is_whitelist()`
holds, and absent a rule set nothing is excluded. -/
def excludedBy : Option (List (String × Bool)) → String → Bool
  | some rules, path => isWhitelistLast rules path
  | none, _ => false

/-- Normalisation of a target path to forward slashes, the model of
`target.to_str().unwrap().replace('\\', "/")` mandated by the zip format. -/
def normalizePath (s : String) : String :=
  String.mk (s.data.map (fun c => if c == bsChar then fsChar else c))

/-- Path join with a forward slash, the model of `Path::join` as used on
the unix-style paths of this development. -/
def joinPath (a b : String) : String := if a = "" then b else a ++ "/" ++ b

/-- One serialized ledger line `path,sha256=<hash>,<length>` with its
newline, shared by `PathWriter::write_record` and `WheelWriter::finish`. -/
def recordLine (r : String × String × Nat) : String :=
  r.1 ++ ",sha256=" ++ r.2.1 ++ "," ++ toString r.2.2 ++ "\n"

/-- Concatenation of the rendering of every element of a list, used to
state closed forms of the serialisation loops. -/
def concatMap (f : α → String) : List α → String
  | [] => ""
  | a :: t => f a ++ concatMap f t

/-- State of the zip-backed wheel writer: the zip entries written so far
(normalised target path, content bytes, unix permissions), the integrity
ledger, the archive-relative name of the RECORD file, and the optional
exclusion rule set.  The open zip stream itself is external I/O. -/
structure WheelWriter where
  entries : List (String × List Nat × Nat)
  record : List (String × String × Nat)
  record_file : String
  excludes : Option (List (String × Bool))
deriving DecidableEq

/-- Model of `WheelWriter::exclude`. -/
def WheelWriter.exclude (w : WheelWriter) (path : String) : Bool :=
  excludedBy w.excludes path

/-- Model of `WheelWriter::add_bytes_with_permissions`: an excluded target
is skipped, otherwise the path is normalised to forward slashes, the entry
is written and a ledger record with the unpadded URL-safe base64 of the
SHA-256 digest and the byte count is appended. -/
def WheelWriter.add_bytes_with_permissions (w : WheelWriter) (target : String)
    (bytes : List Nat) (permissions : Nat) : WheelWriter :=
  if w.exclude target then w
  else
    let t := normalizePath target
    { w with
      entries := w.entries ++ [(t, bytes, permissions)]
      record := w.record ++ [(t, base64urlNoPad (sha256 bytes), bytes.length)] }

/-- One requested wheel write: target path, content, permission bits. -/
structure WWrite where
  target : String
  content : List Nat
  perm : Nat
deriving DecidableEq

/-- Sequential application of a list of wheel writes. -/
def WheelWriter.run_writes : WheelWriter → List WWrite → WheelWriter
  | w, [] => w
  | w, x :: xs =>
      WheelWriter.run_writes (w.add_bytes_with_permissions x.target x.content x.perm) xs

/-- Ledger record produced for one non-excluded wheel write. -/
def ledgerEntry (x : WWrite) : String × String × Nat :=
  (normalizePath x.target, base64urlNoPad (sha256 x.content), x.content.length)

/-- Model of `WheelWriter::finish`: the RECORD entry name (the archive
relative record path, backslashes normalised) and its serialized content,
one line per ledger record followed by the self-naming line with empty
hash and length fields. -/
def WheelWriter.finish (w : WheelWriter) : String × String :=
  let record_filename := normalizePath w.record_file
  (record_filename,
    (w.record.foldl (fun buf r => buf ++ recordLine r) "") ++ record_filename ++ ",,\n")

/-- Model of `PathWriter::write_record` serialisation: the RECORD file is
created at `base_path/dist_info_dir/RECORD`, one line per ledger record is
written, then the self-naming line carries `record_file.display()`, which
is that full joined path.  Returns the record file path and the file
content. -/
def PathWriter.write_record (base_path dist_info_dir : String)
    (record : List (String × String × Nat)) : String × String :=
  let record_file := joinPath (joinPath base_path dist_info_dir) "RECORD"
  (record_file,
    (record.foldl (fun buf r => buf ++ recordLine r) "") ++ record_file ++ ",,\n")

/-- State of the tar-gzip source-distribution writer: the tar entries in
write order (target, content bytes, mode), the output path of the archive,
the set of already-written target paths in insertion order, the optional
exclusion rule set, and a count of emitted self-inclusion warnings. -/
structure SDistWriter where
  entries : List (String × List Nat × Nat)
  path : String
  files : List String
  excludes : Option (List (String × Bool))
  warnings : Nat
deriving DecidableEq

/-- Model of `SDistWriter::exclude`. -/
def SDistWriter.exclude (s : SDistWriter) (path : String) : Bool :=
  excludedBy s.excludes path

/-- Model of `SDistWriter::new`: output path `{name}-{version}.tar.gz`
inside the wheel directory, empty file set. -/
def SDistWriter.new (wheel_dir name version : String)
    (excludes : Option (List (String × Bool))) : SDistWriter :=
  { entries := []
    path := joinPath wheel_dir (name ++ "-" ++ version ++ ".tar.gz")
    files := []
    excludes := excludes
    warnings := 0 }

/-- Model of `SDistWriter::add_bytes_with_permissions`: an excluded target
is skipped, a duplicate target is silently ignored, otherwise the entry is
appended to the tar stream and the target recorded.  The tar I/O itself is
external; failures of it are outside the model, so every modelled branch
returns `Except.ok`. -/
def SDistWriter.add_bytes_with_permissions (s : SDistWriter) (target : String)
    (bytes : List Nat) (permissions : Nat) : Except String SDistWriter :=
  if s.exclude target then Except.ok s
  else if s.files.contains target then Except.ok s
  else Except.ok { s with
    entries := s.entries ++ [(target, bytes, permissions)]
    files := s.files ++ [target] }

/-- Model of `SDistWriter::add_file`: the exclusion filter is consulted on
the SOURCE path; a source equal to the output tarball path is skipped with
a warning; a duplicate target is silently ignored; otherwise the source
file content (given by the file-system valuation `fs`) is appended with
the mode the file has on disk (given by `fsMode`). -/
def SDistWriter.add_file (fs : String → List Nat) (fsMode : String → Nat)
    (s : SDistWriter) (target source : String) : Except String SDistWriter :=
  if s.exclude source then Except.ok s
  else if source == s.path then Except.ok { s with warnings := s.warnings + 1 }
  else if s.files.contains target then Except.ok s
  else Except.ok { s with
    entries := s.entries ++ [(target, fs source, fsMode source)]
    files := s.files ++ [target] }

/-- One write request against the source-distribution backend, either
in-memory bytes or a file copy. -/
inductive SDistOp where
  | bytes (target : String) (content : List Nat) (perm : Nat)
  | file (target source : String)
deriving DecidableEq

/-- Dispatch of one operation to the source-distribution backend. -/
def SDistWriter.run1 (fs : String → List Nat) (fsMode : String → Nat)
    (s : SDistWriter) : SDistOp → Except String SDistWriter
  | SDistOp.bytes t c p => s.add_bytes_with_permissions t c p
  | SDistOp.file t src => SDistWriter.add_file fs fsMode s t src

/-- Target path of a source-distribution operation. -/
def SDistOp.target : SDistOp → String
  | SDistOp.bytes t _ _ => t
  | SDistOp.file t _ => t

/-- Content an operation would write, under the file-system valuation. -/
def SDistOp.content (fs : String → List Nat) : SDistOp → List Nat
  | SDistOp.bytes _ c _ => c
  | SDistOp.file _ src => fs src

/-- Mode an operation would write, under the file-system mode valuation. -/
def SDistOp.mode (fsMode : String → Nat) : SDistOp → Nat
  | SDistOp.bytes _ _ p => p
  | SDistOp.file _ src => fsMode src

/-- An operation is writable when none of the filters that precede the
deduplication check suppress it: for a bytes write the target is not
excluded; for a file copy the source is not excluded and is not the
archive output path itself. -/
def SDistOp.writable (ex : Option (List (String × Bool))) (path : String) :
    SDistOp → Prop
  | SDistOp.bytes t _ _ => excludedBy ex t = false
  | SDistOp.file _ src => excludedBy ex src = false ∧ src ≠ path

/-- Sequential bytes-writes against the source-distribution backend. -/
def SDistWriter.runBytes (s : SDistWriter) (ws : List (String × List Nat × Nat)) :
    Except String SDistWriter :=
  ws.foldlM (fun s w => s.add_bytes_with_permissions w.1 w.2.1 w.2.2) s

/-- Result of one python subprocess invocation: whether the exit status was
success, its display rendering, and the captured standard output and
standard error, decoded as text. -/
structure POutput where
  success : Bool
  status : String
  stdout : String
  stderr : String
deriving DecidableEq

/-- Kind of python subprocess call made by the cffi generation protocol:
the declaration generation call, the isolated-environment probe, or the
pip installation of cffi. -/
inductive PCall where
  | gen
  | probe
  | install
deriving DecidableEq

/-- Single apostrophe character as a string. -/
def squote : String := String.mk [Char.ofNat 39]

/-- Exact stderr line the source compares against to recognise a missing
cffi module. -/
def missingCffiLine : String :=
  "ModuleNotFoundError: No module named " ++ squote ++ "cffi" ++ squote

/-- Sentence that tells the user to install cffi manually; it appears only
in the pip-failure error of the source. -/
def manualInstallMsg : String := "Please install cffi yourself."

/-- Error message built by `handle_cffi_call_result` when the generation
subprocess failed, surfacing status, stdout and stderr verbatim. -/
def genFailMsg (python : String) (o : POutput) : String :=
  "Failed to generate cffi declarations using " ++ python ++ ": " ++ o.status ++
    "\n--- Stdout:\n" ++ o.stdout ++ "\n--- Stderr:\n" ++ o.stderr

/-- Error message built when the pip installation of cffi failed; it ends
with the manual-installation instruction. -/
def installFailMsg (python : String) (o : POutput) : String :=
  "Installing cffi with `" ++ "\"" ++ python ++ "\"" ++
    " -m pip install cffi` failed: " ++ o.status ++ "\n--- Stdout:\n" ++ o.stdout ++
    "\n--- Stderr:\n" ++ o.stderr ++ "\n---\n" ++ manualInstallMsg

/-- Model of `handle_cffi_call_result`: a failed generation subprocess
turns into the terminal generation error; a successful one forwards the
warnings and returns the generated `ffi.py` content (here the file-system
parameter `ffiContent`). -/
def handle_cffi_call_result (python ffiContent : String) (o : POutput) :
    Except String String :=
  if o.success = false then Except.error (genFailMsg python o)
  else Except.ok ffiContent

/-- Model of `generate_cffi_declarations` after the header step: the
python subprocess outcomes are supplied by `oracle` in call order (0 the
generation call, 1 the isolated-environment probe, 2 the pip install,
3 the retried generation call).  Returns the list of calls made, in
order, and the overall outcome.  Mirrors the source control flow: a
successful or non-missing-cffi failing first call is handled directly;
otherwise the probe runs, a non-`True` answer (including the garbage
case, which additionally warns) is handled directly, a `True` answer
leads to the pip install, whose failure is terminal and whose success is
followed by exactly one retried generation call. -/
def generate_cffi_declarations (oracle : Nat → POutput) (python ffiContent : String) :
    List PCall × Except String String :=
  if (oracle 0).success = true then
    ([PCall.gen], handle_cffi_call_result python ffiContent (oracle 0))
  else if lastLine (oracle 0).stderr = missingCffiLine then
    if rustTrim (oracle 1).stdout = "True" then
      if (oracle 2).success = true then
        ([PCall.gen, PCall.probe, PCall.install, PCall.gen],
          handle_cffi_call_result python ffiContent (oracle 3))
      else
        ([PCall.gen, PCall.probe, PCall.install],
          Except.error (installFailMsg python (oracle 2)))
    else
      ([PCall.gen, PCall.probe], handle_cffi_call_result python ffiContent (oracle 0))
  else
    ([PCall.gen], handle_cffi_call_result python ffiContent (oracle 0))

/-- Entry met by the data-directory walk of `add_data`: a plain file, a
directory, or a symbolic link with its raw link target. -/
inductive FsEntry where
  | file (path : List String)
  | dir (path : List String)
  | symlink (path : List String) (target : List String)
deriving DecidableEq

/-- Backend call issued for one walked entry. -/
inductive DataAction where
  | add_file (target source : List String)
  | add_directory (target : List String)
deriving DecidableEq

/-- Parent of a path, the model of `Path::parent().unwrap()` on component
lists. -/
def parentL (p : List String) : List String := p.dropLast

/-- Relative path below a prefix, the model of `Path::strip_prefix`. -/
def stripPrefixL (pre p : List String) : List String := p.drop pre.length

/-- Model of the per-entry dispatch of `add_data`: the relative target is
the walked path below the parent of the data directory; a symlink is
forwarded to `add_file` with `read_link(..).parent().unwrap()` as the
source, a file with its own path, a directory to `add_directory`. -/
def add_data_step (dataParent : List String) (e : FsEntry) : DataAction :=
  match e with
  | FsEntry.symlink p target =>
      DataAction.add_file (stripPrefixL dataParent p) (parentL target)
  | FsEntry.file p => DataAction.add_file (stripPrefixL dataParent p) p
  | FsEntry.dir p => DataAction.add_directory (stripPrefixL dataParent p)

/-- Model of the wheel output file name derivation in `WheelWriter::new`,
`{distribution}-{version}-{tag}.whl`. -/
def wheelFileName (dist version tag : String) : String :=
  dist ++ "-" ++ version ++ "-" ++ tag ++ ".whl"

/-- Fixed header of the compatibility-tag file `WHEEL`, three
newline-terminated lines, parameterised by the generator name and version
the source takes from its build environment. -/
def wheelHeader (genName genVersion : String) : String :=
  "Wheel-Version: 1.0\nGenerator: " ++ genName ++ " (" ++ genVersion ++
    ")\nRoot-Is-Purelib: false\n"

/-- Model of `wheel_file`: the fixed header followed by one appended
`Tag: <tag>` line per supplied tag, in supplied order. -/
def wheel_file (genName genVersion : String) (tags : List String) : String :=
  tags.foldl (fun acc tag => acc ++ ("Tag: " ++ tag ++ "\n"))
    (wheelHeader genName genVersion)

/-- Constant file-system valuation used by concrete witnesses. -/
def fs0 : String → List Nat := fun _ => [1, 2]

/-- Constant file-mode valuation used by concrete witnesses. -/
def fsMode0 : String → Nat := fun _ => 420

/-- Exclusion rule set of the spec scenario for claim C3. -/
def c3rules : List (String × Bool) := mkOverride ["test*", "!test2"]

/-- Source-distribution writer of the C3 scenario. -/
def c3writer : SDistWriter := SDistWriter.new "tmp" "pkg" "1.0.0" (some c3rules)

/-- Fresh writer with no exclusion rules, used by concrete witnesses. -/
def plainWriter : SDistWriter :=
  { entries := [], path := "out.tar.gz", files := [], excludes := none, warnings := 0 }

/-- Writer whose rules exclude sources starting with `src`, for the C10
witness. -/
def srcRuleWriter : SDistWriter :=
  { entries := [], path := "out.tar.gz", files := [],
    excludes := some (mkOverride ["src*"]), warnings := 0 }

/-- Writer whose rules exclude targets starting with `tgt`, for the C10
witness. -/
def tgtRuleWriter : SDistWriter :=
  { entries := [], path := "out.tar.gz", files := [],
    excludes := some (mkOverride ["tgt*"]), warnings := 0 }

/-- Subprocess oracle where the generation call fails for lack of cffi,
the probe answers `True`, and the pip installation fails. -/
def installFailOracle : Nat → POutput := fun n =>
  if n = 0 then ⟨false, "exit status: 1", "", missingCffiLine⟩
  else if n = 1 then ⟨true, "exit status: 0", "True\n", ""⟩
  else ⟨false, "exit status: 1", "", "pip exploded"⟩

/-- Subprocess oracle where the generation call fails for lack of cffi,
the probe answers `True`, the pip installation succeeds and the retried
generation call succeeds. -/
def retryOracle : Nat → POutput := fun n =>
  if n = 0 then ⟨false, "exit status: 1", "", missingCffiLine⟩
  else if n = 1 then ⟨true, "exit status: 0", "True\n", ""⟩
  else ⟨true, "exit status: 0", "", ""⟩

/-- Subprocess oracle where the generation call fails for lack of cffi
and the probe reports a non-isolated environment. -/
def noVenvOracle : Nat → POutput := fun n =>
  if n = 0 then ⟨false, "exit status: 1", "", missingCffiLine⟩
  else ⟨true, "exit status: 0", "False\n", ""⟩

/-- Closed form of the serialisation loops: folding append over a list
starting from an accumulator concatenates the rendered elements after it. -/
theorem concat_foldl (f : α → String) (l : List α) (acc : String) :
    l.foldl (fun b r => b ++ f r) acc = acc ++ concatMap f l := by
  induction l generalizing acc with
  | nil => simp [concatMap, String.append_empty]
  | cons a t ih =>
      simp only [List.foldl_cons, concatMap]
      rw [ih, String.append_assoc]

/-- Characterisation of `List.find?`: it returns exactly the first element
satisfying the predicate, every element before it failing it. -/
theorem find_eq_some_decomp {α : Type} (q : α → Bool) (l : List α) (r : α) :
    l.find? q = some r ↔
      ∃ s t, l = s ++ r :: t ∧ q r = true ∧ ∀ x ∈ s, q x = false := by
  induction l with
  | nil => simp
  | cons a l ih =>
    by_cases h : q a = true
    · rw [List.find?_cons_of_pos _ h]
      constructor
      · intro hr
        injection hr with hr
        subst hr
        exact ⟨[], l, rfl, h, by simp⟩
      · rintro ⟨s, t, hl, hq, hall⟩
        cases s with
        | nil =>
            simp only [List.nil_append, List.cons.injEq] at hl
            rw [hl.1]
        | cons b s =>
            simp only [List.cons_append, List.cons.injEq] at hl
            have : q a = false := hl.1 ▸ hall b (by simp)
            rw [h] at this
            exact absurd this (by simp)
    · have hfa : q a = false := by
        cases hqa : q a
        · rfl
        · exact absurd hqa h
      rw [List.find?_cons_of_neg _ (by simp [hfa]), ih]
      constructor
      · rintro ⟨s, t, hl, hq, hall⟩
        refine ⟨a :: s, t, by rw [hl, List.cons_append], hq, ?_⟩
        intro x hx
        rcases List.mem_cons.mp hx with hx | hx
        · rw [hx]; exact hfa
        · exact hall x hx
      · rintro ⟨s, t, hl, hq, hall⟩
        cases s with
        | nil =>
            simp only [List.nil_append, List.cons.injEq] at hl
            rw [hl.1] at hfa
            rw [hq] at hfa
            exact absurd hfa (by simp)
        | cons b s =>
            simp only [List.cons_append, List.cons.injEq] at hl
            exact ⟨s, t, hl.2, hq, fun x hx => hall x (List.mem_cons_of_mem _ hx)⟩

/-- Characterisation of the exclusion filter with a rule set present: a
path is excluded exactly when some rule matches it, that rule is an
exclude rule (not negated), and no later rule matches the path. -/
theorem excludedBy_some_iff (rules : List (String × Bool)) (path : String) :
    excludedBy (some rules) path = true ↔
      ∃ pre r post, rules = pre ++ r :: post ∧ globMatch r.1 path = true ∧
        r.2 = false ∧ ∀ x ∈ post, globMatch x.1 path = false := by
  show isWhitelistLast rules path = true ↔ _
  unfold isWhitelistLast overrideMatched
  constructor
  · intro h
    rcases hf : rules.reverse.find? (fun r => globMatch r.1 path) with _ | r
    · rw [hf] at h
      exact absurd h (by simp)
    · rw [hf] at h
      simp only [Bool.not_eq_true'] at h
      rcases (find_eq_some_decomp _ _ _).mp hf with ⟨s, t, hl, hq, hall⟩
      refine ⟨t.reverse, r, s.reverse, ?_, hq, h, ?_⟩
      · have hrev := congrArg List.reverse hl
        simp only [List.reverse_reverse, List.reverse_append, List.reverse_cons] at hrev
        rw [hrev]
        simp
      · intro x hx
        exact hall x (by simpa using hx)
  · rintro ⟨pre, r, post, hl, hq, hneg, hall⟩
    have hf : rules.reverse.find? (fun r => globMatch r.1 path) = some r := by
      apply (find_eq_some_decomp _ _ _).mpr
      refine ⟨post.reverse, pre.reverse, ?_, hq, ?_⟩
      · rw [hl]
        simp
      · intro x hx
        exact hall x (by simpa using hx)
    rw [hf]
    simp [hneg]

/-- C1: for every sequence of successful wheel-backend writes, the
finalized ledger extends the initial one with exactly one record per
non-excluded write, in write order, where the record path is the
normalised target, the hash is the unpadded URL-safe base64 rendering of
the SHA-256 digest of the bytes, and the length is the byte count; an
excluded write produces no record. -/
theorem spec_C1_wheel_ledger_records (w : WheelWriter) (ws : List WWrite) :
    (WheelWriter.run_writes w ws).record =
      w.record ++ (ws.filter (fun x => !(w.exclude x.target))).map ledgerEntry := by
  induction ws generalizing w with
  | nil => simp [WheelWriter.run_writes]
  | cons x xs ih =>
    simp only [WheelWriter.run_writes, List.filter_cons]
    by_cases h : w.exclude x.target
    · have hskip : w.add_bytes_with_permissions x.target x.content x.perm = w := by
        simp [WheelWriter.add_bytes_with_permissions, h]
      rw [hskip, ih, h]
      simp
    · have hwrite : w.add_bytes_with_permissions x.target x.content x.perm =
          { w with
            entries := w.entries ++ [(normalizePath x.target, x.content, x.perm)]
            record := w.record ++ [ledgerEntry x] } := by
        simp [WheelWriter.add_bytes_with_permissions, h, ledgerEntry]
      rw [hwrite, ih]
      have hb : w.exclude x.target = false := by
        cases hx : w.exclude x.target
        · rfl
        · exact absurd hx h
      rw [hb]
      simp [WheelWriter.exclude, List.append_assoc]

/-- C2 counterexample: for the filesystem backend with base path `venv`,
the final self-naming line of the serialized RECORD carries the full
joined path `venv/pkg-1.0.0.dist-info/RECORD`, not the relative archive
path `pkg-1.0.0.dist-info/RECORD` the claim requires. -/
theorem spec_C2_counterexample :
    (PathWriter.write_record "venv" "pkg-1.0.0.dist-info" []).2 =
      "venv/pkg-1.0.0.dist-info/RECORD,,\n" ∧
    (PathWriter.write_record "venv" "pkg-1.0.0.dist-info" []).2 ≠
      "pkg-1.0.0.dist-info/RECORD,,\n" := by
  constructor
  · rfl
  · decide

/-- C2 amended: both backends serialize the ledger as a metadata-directory
file named RECORD with one line per record `path,sha256=<hash>,<length>`
followed by a final self-naming line with empty hash and length fields;
the zip backend names the RECORD file by its relative archive path
(backslashes normalised), while the filesystem backend names it by the
full record file path joined under the base install directory. -/
theorem spec_C2_record_serialization (base_path dist_info_dir : String)
    (record : List (String × String × Nat)) (w : WheelWriter) :
    (PathWriter.write_record base_path dist_info_dir record).1 =
      joinPath (joinPath base_path dist_info_dir) "RECORD" ∧
    (PathWriter.write_record base_path dist_info_dir record).2 =
      concatMap recordLine record ++
        (joinPath (joinPath base_path dist_info_dir) "RECORD" ++ ",,\n") ∧
    (WheelWriter.finish w).1 = normalizePath w.record_file ∧
    (WheelWriter.finish w).2 =
      concatMap recordLine w.record ++ (normalizePath w.record_file ++ ",,\n") := by
  refine ⟨rfl, ?_, rfl, ?_⟩
  · show (record.foldl (fun buf r => buf ++ recordLine r) "") ++ _ ++ ",,\n" = _
    rw [concat_foldl]
    simp [String.append_assoc]
  · show (w.record.foldl (fun buf r => buf ++ recordLine r) "") ++ _ ++ ",,\n" = _
    rw [concat_foldl]
    simp [String.append_assoc]

/-- C3: a path is excluded exactly when the last matching rule of the set
is an exclude (non-negated) rule, so a later include rule reverses an
earlier exclusion; with no rule set nothing is excluded; and in the
scenario with rules `test*`, `!test2` and offered targets test1, test2,
test3, yes the source archive contains exactly the entries test2 and
yes. -/
theorem spec_C3_exclusion_semantics :
    (∀ rules path, excludedBy (some rules) path = true ↔
      ∃ pre r post, rules = pre ++ r :: post ∧ globMatch r.1 path = true ∧
        r.2 = false ∧ ∀ x ∈ post, globMatch x.1 path = false) ∧
    (∀ path, excludedBy none path = false) ∧
    SDistWriter.runBytes c3writer
      [("test1", [], 511), ("test2", [], 511), ("test3", [], 511), ("yes", [], 511)] =
      Except.ok (SDistWriter.mk [("test2", [], 511), ("yes", [], 511)]
        "tmp/pkg-1.0.0.tar.gz" ["test2", "yes"] (some c3rules) 0) := by
  refine ⟨excludedBy_some_iff, fun _ => rfl, ?_⟩
  rfl

/-- C3 witness: the characterisation applied at the concrete rule set of
the scenario shows `test1` excluded, via the matching non-negated rule
`test*` with the later rule `test2` not matching. -/
theorem spec_C3_witness : excludedBy (some c3rules) "test1" = true :=
  (spec_C3_exclusion_semantics.1 c3rules "test1").mpr
    ⟨[], ("test*", false), [("test2", true)], rfl, by decide, rfl, by decide⟩

/-- C4: from a fresh source-distribution writer, two writes to the same
target path, through any mix of `add_bytes_with_permissions` and
`add_file`, neither of which is suppressed by the exclusion filter or the
self-inclusion guard, yield exactly one archive entry carrying the
first-provided content; the second call is a silent no-op that leaves the
state unchanged and still returns success. -/
theorem spec_C4_sdist_dedup_first_wins (fs : String → List Nat)
    (fsMode : String → Nat) (ex : Option (List (String × Bool))) (path : String)
    (o1 o2 : SDistOp) (h1 : o1.writable ex path) (h2 : o2.writable ex path)
    (ht : o1.target = o2.target) :
    ∃ s1, SDistWriter.run1 fs fsMode (SDistWriter.mk [] path [] ex 0) o1 =
        Except.ok s1 ∧
      s1.entries = [(o1.target, o1.content fs, o1.mode fsMode)] ∧
      s1.files = [o1.target] ∧
      SDistWriter.run1 fs fsMode s1 o2 = Except.ok s1 := by
  have second : ∀ s1 : SDistWriter, s1.excludes = ex → s1.path = path →
      s1.files = [o1.target] → SDistWriter.run1 fs fsMode s1 o2 = Except.ok s1 := by
    intro s1 hex hpath hfiles
    cases o2 with
    | bytes t2 c2 p2 =>
        have hx : excludedBy ex t2 = false := h2
        have hc : t2 ∈ s1.files := by
          rw [hfiles, ht]
          simp [SDistOp.target]
        simp [SDistWriter.run1, SDistWriter.add_bytes_with_permissions,
          SDistWriter.exclude, hex, hx, hc]
    | file t2 src2 =>
        have hx : excludedBy ex src2 = false := h2.1
        have hp : (src2 == path) = false := by
          simp [h2.2]
        have hc : t2 ∈ s1.files := by
          rw [hfiles, ht]
          simp [SDistOp.target]
        simp [SDistWriter.run1, SDistWriter.add_file, SDistWriter.exclude,
          hex, hpath, hx, hp, hc]
  cases o1 with
  | bytes t c p =>
      have hx : excludedBy ex t = false := h1
      refine ⟨SDistWriter.mk [(t, c, p)] path [t] ex 0, ?_, ?_, ?_, ?_⟩
      · simp [SDistWriter.run1, SDistWriter.add_bytes_with_permissions,
          SDistWriter.exclude, hx]
      · simp [SDistOp.target, SDistOp.content, SDistOp.mode]
      · simp [SDistOp.target]
      · exact second _ rfl rfl (by simp [SDistOp.target])
  | file t src =>
      have hx : excludedBy ex src = false := h1.1
      have hp : (src == path) = false := by
        simp [h1.2]
      refine ⟨SDistWriter.mk [(t, fs src, fsMode src)] path [t] ex 0, ?_, ?_, ?_, ?_⟩
      · simp [SDistWriter.run1, SDistWriter.add_file, SDistWriter.exclude, hx, hp]
      · simp [SDistOp.target, SDistOp.content, SDistOp.mode]
      · simp [SDistOp.target]
      · exact second _ rfl rfl (by simp [SDistOp.target])

/-- C4 witness: a bytes write followed by a file write to the same target
on a fresh writer with no rules leaves one entry with the bytes of the
first write, and the second call returns the state unchanged. -/
theorem spec_C4_witness :
    ∃ s1, SDistWriter.run1 fs0 fsMode0 (SDistWriter.mk [] "out.tar.gz" [] none 0)
        (SDistOp.bytes "a" [9] 511) = Except.ok s1 ∧
      s1.entries = [((SDistOp.bytes "a" [9] 511).target,
        (SDistOp.bytes "a" [9] 511).content fs0,
        (SDistOp.bytes "a" [9] 511).mode fsMode0)] ∧
      s1.files = [(SDistOp.bytes "a" [9] 511).target] ∧
      SDistWriter.run1 fs0 fsMode0 s1 (SDistOp.file "a" "other") = Except.ok s1 :=
  spec_C4_sdist_dedup_first_wins fs0 fsMode0 none "out.tar.gz"
    (SDistOp.bytes "a" [9] 511) (SDistOp.file "a" "other")
    (by simp [SDistOp.writable, excludedBy])
    (by refine ⟨by simp [excludedBy], by decide⟩)
    (by decide)

/-- C5: offering the archive output path itself as the source of
`add_file` adds no entry, leaves the file set unchanged, emits exactly one
warning, and returns success, provided that path is not itself captured by
an exclusion rule (the exclusion check precedes the guard in the
source). -/
theorem spec_C5_self_inclusion_guard (fs : String → List Nat)
    (fsMode : String → Nat) (s : SDistWriter) (target : String)
    (h : excludedBy s.excludes s.path = false) :
    SDistWriter.add_file fs fsMode s target s.path =
      Except.ok { s with warnings := s.warnings + 1 } := by
  simp [SDistWriter.add_file, SDistWriter.exclude, h]

/-- C5 witness: on a fresh writer with no rules, adding the output tarball
path to itself returns success with zero entries and one warning. -/
theorem spec_C5_witness :
    SDistWriter.add_file fs0 fsMode0 plainWriter "t" "out.tar.gz" =
      Except.ok (SDistWriter.mk [] "out.tar.gz" [] none 1) :=
  spec_C5_self_inclusion_guard fs0 fsMode0 plainWriter "t" (by decide)

/-- C10: `SDistWriter::add_file` consults the exclusion filter on the
source path, not the target path: a call with excluded source is silently
skipped whatever the target, a call with excluded target but clean source
is still written, and `add_bytes_with_permissions` instead filters on the
target path. -/
theorem spec_C10_addfile_filters_source :
    (∀ (fs : String → List Nat) (fsMode : String → Nat) (s : SDistWriter)
      (t src : String), excludedBy s.excludes src = true →
        SDistWriter.add_file fs fsMode s t src = Except.ok s) ∧
    (∀ (fs : String → List Nat) (fsMode : String → Nat) (s : SDistWriter)
      (t src : String), excludedBy s.excludes src = false →
        excludedBy s.excludes t = true → src ≠ s.path →
        s.files.contains t = false →
        SDistWriter.add_file fs fsMode s t src =
          Except.ok { s with
                      entries := s.entries ++ [(t, fs src, fsMode src)]
                      files := s.files ++ [t] }) ∧
    (∀ (s : SDistWriter) (t : String) (bytes : List Nat) (perm : Nat),
      excludedBy s.excludes t = true →
        s.add_bytes_with_permissions t bytes perm = Except.ok s) := by
  refine ⟨?_, ?_, ?_⟩
  · intro fs fsMode s t src hx
    simp [SDistWriter.add_file, SDistWriter.exclude, hx]
  · intro fs fsMode s t src hx ht hp hc
    have hb : (src == s.path) = false := by
      simp [hp]
    have hm : t ∉ s.files := by
      simpa using hc
    simp [SDistWriter.add_file, SDistWriter.exclude, hx, hb, hm]
  · intro s t bytes perm hx
    simp [SDistWriter.add_bytes_with_permissions, SDistWriter.exclude, hx]

/-- C10 witness: with rule `src*` the file call for source `src1` is
skipped although target `tgt` matches no rule; with rule `tgt*` the file
call for target `tgt1` is written although the target matches the rule,
because the source `other` is clean. -/
theorem spec_C10_witness :
    SDistWriter.add_file fs0 fsMode0 srcRuleWriter "tgt" "src1" =
      Except.ok srcRuleWriter ∧
    SDistWriter.add_file fs0 fsMode0 tgtRuleWriter "tgt1" "other" =
      Except.ok (SDistWriter.mk [("tgt1", [1, 2], 420)] "out.tar.gz" ["tgt1"]
        (some (mkOverride ["tgt*"])) 0) :=
  ⟨spec_C10_addfile_filters_source.1 fs0 fsMode0 srcRuleWriter "tgt" "src1"
      (by decide),
   spec_C10_addfile_filters_source.2.1 fs0 fsMode0 tgtRuleWriter "tgt1" "other"
      (by decide) (by decide) (by decide) (by decide)⟩

/-- Suffix of a reflexive prefix test on character lists. -/
theorem isPrefixL_refl (l : List Char) : isPrefixL l l = true := by
  induction l with
  | nil => rfl
  | cons c t ih => simp [isPrefixL, ih]

/-- A pattern occurs in any character list that ends with it. -/
theorem infixOfL_suffix (pat pre : List Char) : infixOfL pat (pre ++ pat) = true := by
  induction pre with
  | nil =>
      cases pat with
      | nil => rfl
      | cons c t => simp [infixOfL, isPrefixL_refl]
  | cons c pre ih => simp [infixOfL, ih]

/-- A string that ends with a pattern contains it. -/
theorem strContains_append (x pat : String) : strContains (x ++ pat) pat = true := by
  show infixOfL pat.data (x ++ pat).data = true
  rw [String.data_append]
  exact infixOfL_suffix pat.data x.data

/-- C6 amended: on no subprocess oracle does the cffi generation protocol
invoke the installer more than once or the generation call more than
twice; and whenever the first generation call fails with the missing-cffi
stderr line, the isolated-environment probe answers `True`, and the
installer invocation succeeds, the installer runs exactly once and the
generation call runs exactly twice (one retry). -/
theorem spec_C6_retry_protocol (oracle : Nat → POutput) (python ffiContent : String) :
    ((generate_cffi_declarations oracle python ffiContent).1.count PCall.install ≤ 1 ∧
     (generate_cffi_declarations oracle python ffiContent).1.count PCall.gen ≤ 2) ∧
    ((oracle 0).success = false → lastLine (oracle 0).stderr = missingCffiLine →
      rustTrim (oracle 1).stdout = "True" → (oracle 2).success = true →
      (generate_cffi_declarations oracle python ffiContent).1.count PCall.install = 1 ∧
      (generate_cffi_declarations oracle python ffiContent).1.count PCall.gen = 2) := by
  have cnt : ∀ a : PCall, ∀ l : List PCall, ∀ x : Except String String,
      List.count a (l, x).1 = List.count a l := fun _ _ _ => rfl
  constructor
  · unfold generate_cffi_declarations
    split
    · constructor <;> simp [cnt, List.count_cons, List.count_nil, beq_iff_eq]
    · split
      · split
        · split
          · constructor <;> simp [cnt, List.count_cons, List.count_nil, beq_iff_eq]
          · constructor <;> simp [cnt, List.count_cons, List.count_nil, beq_iff_eq]
        · constructor <;> simp [cnt, List.count_cons, List.count_nil, beq_iff_eq]
      · constructor <;> simp [cnt, List.count_cons, List.count_nil, beq_iff_eq]
  · intro h0 h1 h2 h3
    unfold generate_cffi_declarations
    simp only [h0, h1, h2, h3, Bool.false_eq_true, if_false, if_true, if_pos rfl]
    constructor <;> simp [List.count_cons, List.count_nil, beq_iff_eq]

/-- C6 counterexample: under the hypotheses of the claim (first call fails
with the missing-cffi line, probe answers `True`) the oracle whose pip
installation fails leads to a run with a single generation call, so the
generation is not retried even once, refuting the claimed exactly-one
retry. -/
theorem spec_C6_counterexample :
    (installFailOracle 0).success = false ∧
    lastLine (installFailOracle 0).stderr = missingCffiLine ∧
    rustTrim (installFailOracle 1).stdout = "True" ∧
    (generate_cffi_declarations installFailOracle "python3" "ffi").1.count
      PCall.gen = 1 := by
  exact ⟨rfl, by decide, by decide, by decide⟩

/-- C6 witness: the oracle on which the installation succeeds makes the
protocol run the installer once and the generation call twice. -/
theorem spec_C6_witness :
    (generate_cffi_declarations retryOracle "python3" "ffi").1.count
      PCall.install = 1 ∧
    (generate_cffi_declarations retryOracle "python3" "ffi").1.count
      PCall.gen = 2 :=
  (spec_C6_retry_protocol retryOracle "python3" "ffi").2 (by decide) (by decide)
    (by decide) (by decide)

/-- C7 amended: when the declaration-reading module is absent, a failing
installer invocation yields a terminal error whose message carries the
manual-installation instruction, while a probe answer other than `True`
(not an isolated environment) yields the terminal generation error, which
surfaces the subprocess stderr verbatim and is built without the
manual-installation instruction. -/
theorem spec_C7_cffi_error_paths (oracle : Nat → POutput) (python ffiContent : String)
    (h0 : (oracle 0).success = false)
    (h1 : lastLine (oracle 0).stderr = missingCffiLine) :
    (rustTrim (oracle 1).stdout = "True" → (oracle 2).success = false →
      (generate_cffi_declarations oracle python ffiContent).2 =
        Except.error (installFailMsg python (oracle 2)) ∧
      strContains (installFailMsg python (oracle 2)) manualInstallMsg = true) ∧
    (rustTrim (oracle 1).stdout ≠ "True" →
      (generate_cffi_declarations oracle python ffiContent).2 =
        Except.error (genFailMsg python (oracle 0)) ∧
      ∃ rest, genFailMsg python (oracle 0) = rest ++ (oracle 0).stderr) := by
  constructor
  · intro h2 h3
    constructor
    · unfold generate_cffi_declarations
      simp only [h0, h1, h2, h3, Bool.false_eq_true, if_false, if_true, if_pos rfl]
    · exact strContains_append _ manualInstallMsg
  · intro h2
    constructor
    · unfold generate_cffi_declarations
      simp only [h0, h1, Bool.false_eq_true, if_false, if_pos rfl]
      rw [if_neg h2]
      simp [handle_cffi_call_result, h0]
    · exact ⟨_, rfl⟩

/-- C7 counterexample: with the missing-cffi failure and a probe answering
`False` (not an isolated environment) the function does error, but the
error is the verbatim generation failure and does not contain the
manual-installation instruction the claim requires. -/
theorem spec_C7_counterexample :
    (noVenvOracle 0).success = false ∧
    lastLine (noVenvOracle 0).stderr = missingCffiLine ∧
    rustTrim (noVenvOracle 1).stdout = "False" ∧
    (generate_cffi_declarations noVenvOracle "python3" "ffi").2 =
      Except.error (genFailMsg "python3" (noVenvOracle 0)) ∧
    strContains (genFailMsg "python3" (noVenvOracle 0)) manualInstallMsg = false := by
  refine ⟨rfl, by decide, by decide, rfl, by decide⟩

/-- C7 witness: on the oracle whose pip installation fails, the protocol
errors with the message that ends in the manual-installation
instruction. -/
theorem spec_C7_witness :
    (generate_cffi_declarations installFailOracle "python3" "ffi").2 =
      Except.error (installFailMsg "python3" (installFailOracle 2)) ∧
    strContains (installFailMsg "python3" (installFailOracle 2))
      manualInstallMsg = true :=
  (spec_C7_cffi_error_paths installFailOracle "python3" "ffi" (by decide)
    (by decide)).1 (by decide) (by decide)

/-- C8: evaluation of the `add_data` symlink branch at a concrete entry.
The walked symlink `proj/data/data/foo.txt` with link target
`gen/bar.txt` is forwarded to `add_file` with source `gen`, the parent
directory of the link target, not the link target file itself, so the
archive is never handed the linked file content the claim (and the
comment in the source) promise. -/
theorem spec_C8_symlink_source_is_parent_dir :
    add_data_step ["proj"]
        (FsEntry.symlink ["proj", "data", "data", "foo.txt"] ["gen", "bar.txt"]) =
      DataAction.add_file ["data", "data", "foo.txt"] ["gen"] ∧
    parentL ["gen", "bar.txt"] ≠ ["gen", "bar.txt"] := by
  exact ⟨rfl, by decide⟩

/-- C9: the wheel for distribution pkg, version 1.0.0 and tag t1 is named
`pkg-1.0.0-t1.whl`, and for every generator identity and tag list the
WHEEL entry is the fixed three-line header followed by one `Tag:` line
per tag in supplied order; for the tag list of the scenario the entry is
the header followed by exactly the line `Tag: t1`. -/
theorem spec_C9_wheel_name_and_tags (genName genVersion : String)
    (tags : List String) :
    wheelFileName "pkg" "1.0.0" "t1" = "pkg-1.0.0-t1.whl" ∧
    wheel_file genName genVersion tags =
      wheelHeader genName genVersion ++
        concatMap (fun tag => "Tag: " ++ tag ++ "\n") tags ∧
    wheel_file genName genVersion ["t1"] =
      wheelHeader genName genVersion ++ "Tag: t1\n" := by
  refine ⟨rfl, ?_, rfl⟩
  exact concat_foldl (fun tag => "Tag: " ++ tag ++ "\n") tags
    (wheelHeader genName genVersion)
